import Mathlib

/-!
# SecretBallotBox — shallow embedding

A shallow embedding of the `SecretBallotBox` Solidity contract and of the
off-chain reveal task, together with proofs of the specification claims.

Modelling conventions:
* `uint256` quantities (ids, timestamps, totals) are `Nat`.
* `euint32` encrypted counters are modelled by their plaintext `Nat` value,
  reduced modulo `2 ^ 32` exactly where `FHE.add` on `euint32` wraps;
  `uint32` stores are reduced modulo `2 ^ 32` at the store.
* Solidity mappings are total functions with the zero/default value on
  untouched keys; `Function.update` models a storage write.
* A reverting call is an `Except.error`: it returns no successor state, which
  models "revert leaves the state unchanged" by construction.
* `block.timestamp` is an explicit `now : Nat` argument, `msg.sender` an
  explicit `sender : Nat` argument.
* `FHE.fromExternal` proof checking is external to the contract source; it is
  modelled by a boolean `proofValid` argument that makes the call revert when
  false.
-/

namespace SecretBallotBox

/-- The wrap modulus of `euint32` / `uint32` values. -/
def U32MOD : Nat := 2 ^ 32

/-- Voter / caller identity (`address`). -/
abbrev Address := Nat

/-- The `Ballot` struct of the contract.  Mappings become total functions. -/
structure Ballot where
  title : String
  candidates : List String
  endTime : Nat
  isActive : Bool
  resultsRevealed : Bool
  creator : Address
  totalVotes : Nat
  encryptedVotes : Nat → Nat
  finalResults : Nat → Nat
  hasVoted : Address → Bool

/-- The default (all-zero) ballot that a Solidity mapping returns for an
untouched key. -/
def Ballot.default : Ballot :=
  { title := ""
    candidates := []
    endTime := 0
    isActive := false
    resultsRevealed := false
    creator := 0
    totalVotes := 0
    encryptedVotes := fun _ => 0
    finalResults := fun _ => 0
    hasVoted := fun _ => false }

/-- Events emitted by the contract. -/
inductive Event where
  | BallotCreated (ballotId : Nat) (title : String) (creator : Address) (endTime : Nat)
  | VoteCast (ballotId : Nat) (voter : Address)
  | ResultsRevealed (ballotId : Nat) (results : List Nat)

/-- Revert reasons, one per `require` message of the contract, plus the
external input-proof failure of `FHE.fromExternal`. -/
inductive Err where
  | ballotDoesNotExist
  | ballotNotActive
  | ballotHasEnded
  | ballotStillActive
  | alreadyVoted
  | tooFewCandidates
  | tooManyCandidates
  | nonPositiveDuration
  | invalidCandidateIndex
  | resultsAlreadyRevealed
  | invalidResultsLength
  | resultsNotYetRevealed
  | invalidInputProof
deriving DecidableEq

/-- The three `require`s of `createBallot` map to the `ValidationError`
family of the specification. -/
def Err.isValidation : Err → Bool
  | .tooFewCandidates => true
  | .tooManyCandidates => true
  | .nonPositiveDuration => true
  | _ => false

/-- Contract storage: `ballotCounter`, the `ballots` mapping, and the log of
emitted events. -/
structure State where
  ballotCounter : Nat
  ballots : Nat → Ballot
  events : List Event

/-- The storage of a freshly deployed contract. -/
def initState : State :=
  { ballotCounter := 0, ballots := fun _ => Ballot.default, events := [] }

/-- `createBallot(title, candidates, durationMinutes)`.  Returns the new state
and the allocated ballot id.  Mirrors the source: the three `require`s, the
`ballotCounter++` allocation, the field stores (candidates are pushed onto the
existing storage array of the fresh slot), `endTime = block.timestamp +
durationMinutes * 60`, and the loop initializing one encrypted counter per
candidate to `FHE.asEuint32(0)`. -/
def createBallot (s : State) (sender : Address) (now : Nat) (title : String)
    (candidates : List String) (durationMinutes : Nat) :
    Except Err (State × Nat) :=
  if candidates.length < 2 then .error .tooFewCandidates
  else if 10 < candidates.length then .error .tooManyCandidates
  else if durationMinutes = 0 then .error .nonPositiveDuration
  else
    let ballotId := s.ballotCounter
    let old := s.ballots ballotId
    let b : Ballot :=
      { old with
        title := title
        candidates := old.candidates ++ candidates
        endTime := now + durationMinutes * 60
        isActive := true
        resultsRevealed := false
        creator := sender
        totalVotes := 0
        encryptedVotes := fun i =>
          if i < candidates.length then 0 else old.encryptedVotes i }
    .ok ({ ballotCounter := s.ballotCounter + 1
           ballots := Function.update s.ballots ballotId b
           events := s.events ++
             [.BallotCreated ballotId title sender (now + durationMinutes * 60)] },
         ballotId)

/-- `vote(ballotId, candidateIndex)`.  Modifier order as in the source:
`ballotExists`, `ballotActive` (active flag, then `block.timestamp <
endTime`), `hasNotVoted`; then the candidate-index bound check; then the
homomorphic `+1` on the chosen counter (wrapping at `2 ^ 32`), the `hasVoted`
store, the `totalVotes++`, and the `VoteCast` event. -/
def vote (s : State) (sender : Address) (now ballotId candidateIndex : Nat) :
    Except Err State :=
  if s.ballotCounter ≤ ballotId then .error .ballotDoesNotExist
  else if (s.ballots ballotId).isActive = false then .error .ballotNotActive
  else if (s.ballots ballotId).endTime ≤ now then .error .ballotHasEnded
  else if (s.ballots ballotId).hasVoted sender = true then .error .alreadyVoted
  else if (s.ballots ballotId).candidates.length ≤ candidateIndex then
    .error .invalidCandidateIndex
  else
    let ballot := s.ballots ballotId
    let b : Ballot :=
      { ballot with
        encryptedVotes := Function.update ballot.encryptedVotes candidateIndex
          ((ballot.encryptedVotes candidateIndex + 1) % U32MOD)
        hasVoted := Function.update ballot.hasVoted sender true
        totalVotes := ballot.totalVotes + 1 }
    .ok { s with
          ballots := Function.update s.ballots ballotId b
          events := s.events ++ [.VoteCast ballotId sender] }

/-- `voteEncrypted(ballotId, encryptedCandidateIndex, inputProof)`.  Same
modifiers as `vote`; `FHE.fromExternal` verifies the proof (modelled by
`proofValid`) and its result is discarded; the body then increments the
counter of candidate `0` — a placeholder ignoring the supplied encrypted
index — and updates `hasVoted` / `totalVotes` like `vote`. -/
def voteEncrypted (s : State) (sender : Address) (now ballotId : Nat)
    (encryptedCandidateIndex : Nat) (proofValid : Bool) : Except Err State :=
  if s.ballotCounter ≤ ballotId then .error .ballotDoesNotExist
  else if (s.ballots ballotId).isActive = false then .error .ballotNotActive
  else if (s.ballots ballotId).endTime ≤ now then .error .ballotHasEnded
  else if (s.ballots ballotId).hasVoted sender = true then .error .alreadyVoted
  else if proofValid = false then .error .invalidInputProof
  else
    let ballot := s.ballots ballotId
    let b : Ballot :=
      { ballot with
        encryptedVotes := Function.update ballot.encryptedVotes 0
          ((ballot.encryptedVotes 0 + 1) % U32MOD)
        hasVoted := Function.update ballot.hasVoted sender true
        totalVotes := ballot.totalVotes + 1 }
    .ok { s with
          ballots := Function.update s.ballots ballotId b
          events := s.events ++ [.VoteCast ballotId sender] }

/-- `setResults(ballotId, results)`.  Modifiers `ballotExists` and
`ballotEnded` (`block.timestamp >= endTime`), then the not-yet-revealed and
length `require`s; the loop stores `finalResults[i] = uint32(results[i])`
(reduction modulo `2 ^ 32`), sets `resultsRevealed = true`, and emits
`ResultsRevealed` carrying the unreduced `uint256[] results`.  Note that the
function never reads `msg.sender`. -/
def setResults (s : State) (sender : Address) (now ballotId : Nat)
    (results : List Nat) : Except Err State :=
  if s.ballotCounter ≤ ballotId then .error .ballotDoesNotExist
  else if now < (s.ballots ballotId).endTime then .error .ballotStillActive
  else if (s.ballots ballotId).resultsRevealed = true then
    .error .resultsAlreadyRevealed
  else if ¬ results.length = (s.ballots ballotId).candidates.length then
    .error .invalidResultsLength
  else
    let ballot := s.ballots ballotId
    let b : Ballot :=
      { ballot with
        finalResults := fun i =>
          if i < results.length then results.getD i 0 % U32MOD
          else ballot.finalResults i
        resultsRevealed := true }
    .ok { s with
          ballots := Function.update s.ballots ballotId b
          events := s.events ++ [.ResultsRevealed ballotId results] }

/-- `getResults(ballotId)`: `ballotExists`, then the revealed `require`, then
the copy loop `results[i] = finalResults[i]` over the candidate range. -/
def getResults (s : State) (ballotId : Nat) : Except Err (List Nat) :=
  if s.ballotCounter ≤ ballotId then .error .ballotDoesNotExist
  else if (s.ballots ballotId).resultsRevealed = false then
    .error .resultsNotYetRevealed
  else
    .ok ((List.range (s.ballots ballotId).candidates.length).map
      (s.ballots ballotId).finalResults)

/-- `getActiveBallots()`: the ids `i < ballotCounter` with
`ballots[i].isActive && block.timestamp < ballots[i].endTime`; the two-pass
count-then-populate loop of the source is the filter over the id range. -/
def getActiveBallots (s : State) (now : Nat) : List Nat :=
  (List.range s.ballotCounter).filter
    (fun i => (s.ballots i).isActive && decide (now < (s.ballots i).endTime))

/-- `getEndedBallots()`: the ids `i < ballotCounter` with
`block.timestamp >= ballots[i].endTime`. -/
def getEndedBallots (s : State) (now : Nat) : List Nat :=
  (List.range s.ballotCounter).filter
    (fun i => decide ((s.ballots i).endTime ≤ now))

/-- Sum of the stored per-candidate final results over the candidate range of
a ballot. -/
def finalSum (b : Ballot) : Nat :=
  ((List.range b.candidates.length).map b.finalResults).sum

/-- The reachable contract states: the fresh deployment, closed under
successful `createBallot`, `vote`, `voteEncrypted` and `setResults` calls at
arbitrary times and from arbitrary senders (a reverting call leaves the state
unchanged, so it needs no step). -/
inductive Reachable : State → Prop where
  | init : Reachable initState
  | createStep (s s' : State) (sender : Address) (now : Nat) (title : String)
      (cands : List String) (dur bid : Nat) :
      Reachable s → createBallot s sender now title cands dur = .ok (s', bid) →
      Reachable s'
  | voteStep (s s' : State) (sender : Address) (now bid ci : Nat) :
      Reachable s → vote s sender now bid ci = .ok s' → Reachable s'
  | voteEncStep (s s' : State) (sender : Address) (now bid enc : Nat)
      (pf : Bool) :
      Reachable s → voteEncrypted s sender now bid enc pf = .ok s' →
      Reachable s'
  | setResultsStep (s s' : State) (sender : Address) (now bid : Nat)
      (results : List Nat) :
      Reachable s → setResults s sender now bid results = .ok s' →
      Reachable s'

/-! ## Concrete example states

The states below are obtained by running the operations; the dead `error`
fallback arms are never taken (each step is proved to succeed by `rfl`). -/

/-- The state after `createBallot("T", ["A","B"], 1)` from the fresh
deployment by sender `0` at time `0` (ballot `0`, `endTime = 60`). -/
def exState : State :=
  match createBallot initState 0 0 "T" ["A", "B"] 1 with
  | .ok (s, _) => s
  | .error _ => initState

/-- `exState` after voter `1` voted for candidate `1` at time `0`. -/
def exStateVoted : State :=
  match vote exState 1 0 0 1 with
  | .ok s => s
  | .error _ => exState

/-- `exState` after a `voteEncrypted` call by voter `1` at time `0` with
encrypted index `99` and a valid proof. -/
def exStateEncVoted : State :=
  match voteEncrypted exState 1 0 0 99 true with
  | .ok s => s
  | .error _ => exState

/-- `exState` after `setResults(0, [0, 0])` by sender `2` at time `60`. -/
def exStateRevealed : State :=
  match setResults exState 2 60 0 [0, 0] with
  | .ok s => s
  | .error _ => exState

example : createBallot initState 0 0 "T" ["A", "B"] 1 = .ok (exState, 0) := rfl
example : vote exState 1 0 0 1 = .ok exStateVoted := rfl
example : voteEncrypted exState 1 0 0 99 true = .ok exStateEncVoted := rfl
example : setResults exState 2 60 0 [0, 0] = .ok exStateRevealed := rfl
example : exState.ballotCounter = 1 := rfl
example : (exState.ballots 0).endTime = 60 := by decide
example : (exStateVoted.ballots 0).totalVotes = 1 := by decide
example : (exStateVoted.ballots 0).encryptedVotes 1 = 1 := by decide
example : (exStateRevealed.ballots 0).resultsRevealed = true := by decide

/-- `exState` is reachable. -/
lemma reachable_exState : Reachable exState :=
  Reachable.createStep initState exState 0 0 "T" ["A", "B"] 1 0
    Reachable.init rfl

/-! ## Inversion lemmas: what a successful call implies -/

/-- Successful `createBallot`: the guards passed, the id is the old counter,
and the successor state is the explicit update. -/
lemma createBallot_inv {s s' : State} {sender : Address} {now : Nat}
    {title : String} {cands : List String} {dur bid : Nat}
    (h : createBallot s sender now title cands dur = .ok (s', bid)) :
    2 ≤ cands.length ∧ cands.length ≤ 10 ∧ 0 < dur ∧ bid = s.ballotCounter ∧
    s' = { ballotCounter := s.ballotCounter + 1
           ballots := Function.update s.ballots s.ballotCounter
             { s.ballots s.ballotCounter with
               title := title
               candidates := (s.ballots s.ballotCounter).candidates ++ cands
               endTime := now + dur * 60
               isActive := true
               resultsRevealed := false
               creator := sender
               totalVotes := 0
               encryptedVotes := fun i =>
                 if i < cands.length then 0
                 else (s.ballots s.ballotCounter).encryptedVotes i }
           events := s.events ++
             [.BallotCreated s.ballotCounter title sender (now + dur * 60)] } := by
  unfold createBallot at h
  split_ifs at h with h1 h2 h3
  simp only [Except.ok.injEq, Prod.mk.injEq] at h
  exact ⟨by omega, by omega, by omega, h.2.symm, h.1.symm⟩

/-- Successful `vote`: all modifiers and the index check passed, and the
successor state is the explicit update. -/
lemma vote_inv {s s' : State} {sender : Address} {now bid ci : Nat}
    (h : vote s sender now bid ci = .ok s') :
    bid < s.ballotCounter ∧ (s.ballots bid).isActive = true ∧
    now < (s.ballots bid).endTime ∧ (s.ballots bid).hasVoted sender = false ∧
    ci < (s.ballots bid).candidates.length ∧
    s' = { s with
           ballots := Function.update s.ballots bid
             { s.ballots bid with
               encryptedVotes := Function.update (s.ballots bid).encryptedVotes
                 ci (((s.ballots bid).encryptedVotes ci + 1) % U32MOD)
               hasVoted := Function.update (s.ballots bid).hasVoted sender true
               totalVotes := (s.ballots bid).totalVotes + 1 }
           events := s.events ++ [.VoteCast bid sender] } := by
  unfold vote at h
  split_ifs at h with h1 h2 h3 h4 h5
  simp only [Except.ok.injEq] at h
  refine ⟨by omega, ?_, by omega, ?_, by omega, h.symm⟩
  · simpa using h2
  · simpa using h4

/-- Successful `voteEncrypted`: all modifiers passed, the proof verified, and
the successor state increments the counter of candidate `0`. -/
lemma voteEncrypted_inv {s s' : State} {sender : Address} {now bid enc : Nat}
    {pf : Bool} (h : voteEncrypted s sender now bid enc pf = .ok s') :
    bid < s.ballotCounter ∧ (s.ballots bid).isActive = true ∧
    now < (s.ballots bid).endTime ∧ (s.ballots bid).hasVoted sender = false ∧
    pf = true ∧
    s' = { s with
           ballots := Function.update s.ballots bid
             { s.ballots bid with
               encryptedVotes := Function.update (s.ballots bid).encryptedVotes
                 0 (((s.ballots bid).encryptedVotes 0 + 1) % U32MOD)
               hasVoted := Function.update (s.ballots bid).hasVoted sender true
               totalVotes := (s.ballots bid).totalVotes + 1 }
           events := s.events ++ [.VoteCast bid sender] } := by
  unfold voteEncrypted at h
  split_ifs at h with h1 h2 h3 h4 h5
  simp only [Except.ok.injEq] at h
  refine ⟨by omega, ?_, by omega, ?_, ?_, h.symm⟩
  · simpa using h2
  · simpa using h4
  · simpa using h5

/-- Successful `setResults`: the ballot exists and had ended, results were not
yet revealed, the supplied array has the right length, and the successor state
stores each entry reduced modulo `2 ^ 32`, flips the flag and logs the
unreduced array. -/
lemma setResults_inv {s s' : State} {sender : Address} {now bid : Nat}
    {results : List Nat} (h : setResults s sender now bid results = .ok s') :
    bid < s.ballotCounter ∧ (s.ballots bid).endTime ≤ now ∧
    (s.ballots bid).resultsRevealed = false ∧
    results.length = (s.ballots bid).candidates.length ∧
    s' = { s with
           ballots := Function.update s.ballots bid
             { s.ballots bid with
               finalResults := fun i =>
                 if i < results.length then results.getD i 0 % U32MOD
                 else (s.ballots bid).finalResults i
               resultsRevealed := true }
           events := s.events ++ [.ResultsRevealed bid results] } := by
  unfold setResults at h
  split_ifs at h with h1 h2 h3 h4
  simp only [Except.ok.injEq] at h
  refine ⟨by omega, by omega, ?_, by omega, h.symm⟩
  simpa using h3

/-- The per-candidate decryption loop of the off-chain `task:reveal-results`
hardhat task: for each candidate index below the candidate count it pushes `0`
when the counter handle is the zero hash, otherwise the decrypted value, and
on a decryption failure (the `catch` branch, `decrypt i = none`) it pushes `0`
and continues with the remaining candidates. -/
def revealDecryptLoop (numCandidates : Nat) (isZeroHash : Nat → Bool)
    (decrypt : Nat → Option Nat) : List Nat :=
  (List.range numCandidates).map (fun i =>
    if isZeroHash i then 0
    else
      match decrypt i with
      | some v => v
      | none => 0)

/-! ## Reachability invariants -/

/-- In every reachable state, every created ballot has `isActive = true`:
no operation of the contract ever clears the flag. -/
lemma reachable_isActive {s : State} (h : Reachable s) :
    ∀ i, i < s.ballotCounter → (s.ballots i).isActive = true := by
  induction h with
  | init => intro i hi; simp [initState] at hi
  | createStep s s' sender now title cands dur bid hr heq ih =>
    obtain ⟨-, -, -, -, rfl⟩ := createBallot_inv heq
    intro i hi
    dsimp only at hi ⊢
    by_cases hib : i = s.ballotCounter
    · subst hib; simp [Function.update_same]
    · rw [Function.update_noteq hib]
      exact ih i (by omega)
  | voteStep s s' sender now bid ci hr heq ih =>
    obtain ⟨hbid, -, -, -, -, rfl⟩ := vote_inv heq
    intro i hi
    dsimp only at hi ⊢
    by_cases hib : i = bid
    · subst hib; simp [Function.update_same]; exact ih i hbid
    · rw [Function.update_noteq hib]; exact ih i hi
  | voteEncStep s s' sender now bid enc pf hr heq ih =>
    obtain ⟨hbid, -, -, -, -, rfl⟩ := voteEncrypted_inv heq
    intro i hi
    dsimp only at hi ⊢
    by_cases hib : i = bid
    · subst hib; simp [Function.update_same]; exact ih i hbid
    · rw [Function.update_noteq hib]; exact ih i hi
  | setResultsStep s s' sender now bid results hr heq ih =>
    obtain ⟨hbid, -, -, -, rfl⟩ := setResults_inv heq
    intro i hi
    dsimp only at hi ⊢
    by_cases hib : i = bid
    · subst hib; simp [Function.update_same]; exact ih i hbid
    · rw [Function.update_noteq hib]; exact ih i hi

/-- In every reachable state, every slot at or above `ballotCounter` still
holds the default ballot: ids are allocated densely and never touched before
allocation. -/
lemma reachable_fresh {s : State} (h : Reachable s) :
    ∀ i, s.ballotCounter ≤ i → s.ballots i = Ballot.default := by
  induction h with
  | init => intro i _; rfl
  | createStep s s' sender now title cands dur bid hr heq ih =>
    obtain ⟨-, -, -, -, rfl⟩ := createBallot_inv heq
    intro i hi
    dsimp only at hi ⊢
    rw [Function.update_noteq (by omega)]
    exact ih i (by omega)
  | voteStep s s' sender now bid ci hr heq ih =>
    obtain ⟨hbid, -, -, -, -, rfl⟩ := vote_inv heq
    intro i hi
    dsimp only at hi ⊢
    rw [Function.update_noteq (by omega)]
    exact ih i hi
  | voteEncStep s s' sender now bid enc pf hr heq ih =>
    obtain ⟨hbid, -, -, -, -, rfl⟩ := voteEncrypted_inv heq
    intro i hi
    dsimp only at hi ⊢
    rw [Function.update_noteq (by omega)]
    exact ih i hi
  | setResultsStep s s' sender now bid results hr heq ih =>
    obtain ⟨hbid, -, -, -, rfl⟩ := setResults_inv heq
    intro i hi
    dsimp only at hi ⊢
    rw [Function.update_noteq (by omega)]
    exact ih i hi

/-! ## Helpers on the query functions -/

/-- Membership in `getActiveBallots`. -/
lemma mem_getActiveBallots {s : State} {now i : Nat} :
    i ∈ getActiveBallots s now ↔
      i < s.ballotCounter ∧ (s.ballots i).isActive = true ∧
        now < (s.ballots i).endTime := by
  simp [getActiveBallots, List.mem_filter, List.mem_range, and_assoc]

/-- Membership in `getEndedBallots`. -/
lemma mem_getEndedBallots {s : State} {now i : Nat} :
    i ∈ getEndedBallots s now ↔
      i < s.ballotCounter ∧ (s.ballots i).endTime ≤ now := by
  simp [getEndedBallots, List.mem_filter, List.mem_range]

/-- Evaluating the stored-results map of `setResults` over the candidate
range yields the supplied array reduced entrywise modulo `2 ^ 32`. -/
lemma map_range_finalStore (results : List Nat) (old : Nat → Nat) (n : Nat)
    (hn : n = results.length) :
    (List.range n).map (fun i =>
        if i < results.length then results.getD i 0 % U32MOD else old i) =
      results.map (fun x => x % U32MOD) := by
  subst hn
  apply List.ext_getElem (by simp)
  intro n h1 h2
  simp only [List.getElem_map, List.getElem_range]
  have hn' : n < results.length := by simpa using h1
  rw [if_pos hn', List.getD_eq_getElem results 0 hn']

/-! ## Claim theorems -/

/-- Claim C5: `createBallot` fails with a ValidationError whenever the
candidate count is below 2 or above 10 or the duration is zero (the revert
changes no state by construction); otherwise it succeeds, allocates the next
dense id (the prior registry size), sets `endTime = now + duration`,
`isActive = true`, `resultsRevealed = false`, `totalVotes = 0`, stores the
supplied title and candidates, initializes one encrypted counter per
candidate to encrypted zero, and emits the creation event. -/
theorem claim_C5 (s : State) (h : Reachable s) (sender : Address) (now : Nat)
    (title : String) (cands : List String) (dur : Nat) :
    ((cands.length < 2 ∨ 10 < cands.length ∨ dur = 0) →
      ∃ e, createBallot s sender now title cands dur = .error e ∧
        e.isValidation = true) ∧
    (2 ≤ cands.length → cands.length ≤ 10 → 0 < dur →
      ∃ s', createBallot s sender now title cands dur =
          .ok (s', s.ballotCounter) ∧
        s'.ballotCounter = s.ballotCounter + 1 ∧
        (s'.ballots s.ballotCounter).title = title ∧
        (s'.ballots s.ballotCounter).candidates = cands ∧
        (s'.ballots s.ballotCounter).endTime = now + dur * 60 ∧
        (s'.ballots s.ballotCounter).isActive = true ∧
        (s'.ballots s.ballotCounter).resultsRevealed = false ∧
        (s'.ballots s.ballotCounter).creator = sender ∧
        (s'.ballots s.ballotCounter).totalVotes = 0 ∧
        (∀ i, i < cands.length →
          (s'.ballots s.ballotCounter).encryptedVotes i = 0) ∧
        s'.events = s.events ++
          [Event.BallotCreated s.ballotCounter title sender
            (now + dur * 60)]) := by
  constructor
  · intro hbad
    unfold createBallot
    by_cases h1 : cands.length < 2
    · rw [if_pos h1]; exact ⟨_, rfl, rfl⟩
    · rw [if_neg h1]
      by_cases h2 : 10 < cands.length
      · rw [if_pos h2]; exact ⟨_, rfl, rfl⟩
      · rw [if_neg h2]
        have h3 : dur = 0 := by rcases hbad with a | b | c <;> omega
        rw [if_pos h3]; exact ⟨_, rfl, rfl⟩
  · intro hlen2 hlen10 hdur
    have hfresh := reachable_fresh h s.ballotCounter (le_refl _)
    unfold createBallot
    rw [if_neg (by omega), if_neg (by omega), if_neg (by omega)]
    refine ⟨_, rfl, rfl, ?_, ?_, ?_, ?_, ?_, ?_, ?_, ?_, ?_⟩ <;>
      simp [Function.update_same, hfresh, Ballot.default]

/-- Witness for C5: from the fresh deployment, creation with one candidate
fails with a ValidationError, and creation with two candidates and duration 1
succeeds with ballot id 0 and the stated initial fields. -/
theorem claim_C5_witness :
    (∃ e, createBallot initState 0 0 "T" ["A"] 5 = Except.error e ∧
      e.isValidation = true) ∧
    (∃ s', createBallot initState 0 0 "T" ["A", "B"] 1 = Except.ok (s', 0) ∧
      s'.ballotCounter = 1 ∧
      (s'.ballots 0).title = "T" ∧
      (s'.ballots 0).candidates = ["A", "B"] ∧
      (s'.ballots 0).endTime = 60 ∧
      (s'.ballots 0).isActive = true ∧
      (s'.ballots 0).resultsRevealed = false ∧
      (s'.ballots 0).creator = 0 ∧
      (s'.ballots 0).totalVotes = 0 ∧
      (∀ i, i < 2 → (s'.ballots 0).encryptedVotes i = 0) ∧
      s'.events = [Event.BallotCreated 0 "T" 0 60]) :=
  ⟨(claim_C5 initState Reachable.init 0 0 "T" ["A"] 5).1 (Or.inl (by decide)),
   (claim_C5 initState Reachable.init 0 0 "T" ["A", "B"] 1).2
     (by decide) (by decide) (by decide)⟩

/-- Claim C3: a reveal commit while `now < endTime` fails with
StillActiveError; a successful reveal requires the flag to be false and the
ballot to have ended, sets the flag, and afterwards every further reveal (at
any later time, so still past `endTime`) fails with AlreadyRevealedError — a
revert leaves `finalResult` unchanged by construction.  So `resultsRevealed`
goes false to true exactly once per ballot and only when `now ≥ endTime`. -/
theorem claim_C3 (s : State) (sender : Address) (now bid : Nat)
    (results : List Nat) :
    (bid < s.ballotCounter → now < (s.ballots bid).endTime →
      setResults s sender now bid results = .error .ballotStillActive) ∧
    (∀ s', setResults s sender now bid results = .ok s' →
      (s.ballots bid).resultsRevealed = false ∧
      (s.ballots bid).endTime ≤ now ∧
      (s'.ballots bid).resultsRevealed = true ∧
      ∀ sender2 now2 results2, (s'.ballots bid).endTime ≤ now2 →
        setResults s' sender2 now2 bid results2 =
          .error .resultsAlreadyRevealed) := by
  constructor
  · intro hex hnow
    unfold setResults
    rw [if_neg (by omega), if_pos hnow]
  · intro s' hok
    obtain ⟨hex, hend, hrev, hlen, rfl⟩ := setResults_inv hok
    refine ⟨hrev, hend, by simp [Function.update_same], ?_⟩
    intro sender2 now2 results2 hend2
    unfold setResults
    dsimp only
    simp only [Function.update_same] at hend2 ⊢
    rw [if_neg (by omega), if_neg (by omega)]
    simp

/-- Witness for C3: on the concrete created ballot (endTime 60), a reveal at
time 0 fails with StillActiveError, and after the successful reveal at time
60 a further reveal at time 61 fails with AlreadyRevealedError. -/
theorem claim_C3_witness :
    setResults exState 0 0 0 [0, 0] = Except.error Err.ballotStillActive ∧
    setResults exStateRevealed 3 61 0 [1, 2] =
      Except.error Err.resultsAlreadyRevealed :=
  ⟨(claim_C3 exState 0 0 0 [0, 0]).1 (by decide) (by decide),
   ((claim_C3 exState 2 60 0 [0, 0]).2 exStateRevealed rfl).2.2.2
     3 61 [1, 2] (by decide)⟩

/-- Claim C4: `setResults` imposes no caller authorization: for every caller,
a reveal commit on an existing, ended, not-yet-revealed ballot with a
results array of the right length succeeds and stores the supplied values
(as `uint32`, i.e. reduced modulo `2 ^ 32`), and any two callers in the same
state with the same arguments get the identical outcome. -/
theorem claim_C4 (s : State) (sender sender2 : Address) (now bid : Nat)
    (results : List Nat) (hex : bid < s.ballotCounter)
    (hend : (s.ballots bid).endTime ≤ now)
    (hrev : (s.ballots bid).resultsRevealed = false)
    (hlen : results.length = (s.ballots bid).candidates.length) :
    (∃ s', setResults s sender now bid results = .ok s' ∧
      ∀ i, i < results.length →
        (s'.ballots bid).finalResults i = results.getD i 0 % U32MOD) ∧
    setResults s sender now bid results =
      setResults s sender2 now bid results := by
  constructor
  · unfold setResults
    rw [if_neg (by omega), if_neg (by omega), if_neg (by simp [hrev]),
      if_neg (by simp [hlen])]
    refine ⟨_, rfl, ?_⟩
    intro i hi
    simp [Function.update_same, hi]
  · rfl

/-- Witness for C4: two distinct callers commit the same results on the
concrete ended ballot; the call succeeds, stores the values, and the
outcome is caller-independent. -/
theorem claim_C4_witness :
    (∃ s', setResults exState 5 60 0 [1, 2] = Except.ok s' ∧
      ∀ i, i < 2 → (s'.ballots 0).finalResults i = [1, 2].getD i 0 % U32MOD) ∧
    setResults exState 5 60 0 [1, 2] = setResults exState 6 60 0 [1, 2] :=
  claim_C4 exState 5 6 60 0 [1, 2] (by decide) (by decide) (by decide)
    (by decide)

/-- Counterexample for C2 as stated: voter `1` votes successfully on ballot
`0`; a second attempt by the same voter at time 60 — after `endTime` — fails,
but with the ballot-ended error of the `ballotActive` modifier (checked
before `hasNotVoted`), not with DuplicateVoteError. -/
theorem claim_C2_counterexample :
    vote exState 1 0 0 1 = Except.ok exStateVoted ∧
    (exStateVoted.ballots 0).hasVoted 1 = true ∧
    vote exStateVoted 1 60 0 1 = Except.error Err.ballotHasEnded ∧
    Err.ballotHasEnded ≠ Err.alreadyVoted :=
  ⟨rfl, by decide, rfl, by decide⟩

/-- Claim C2 (amended): for every ballot and voter, at most one
`vote`/`voteEncrypted` call is accepted — a success requires the
participation flag to be clear and sets it — and once the flag is set every
subsequent attempt fails (leaving the state unchanged, since a revert
returns no state), failing specifically with DuplicateVoteError whenever the
ballot still exists, is active and `now < endTime` at the attempt. -/
theorem claim_C2_amended (s : State) (sender : Address) (now bid ci enc : Nat)
    (pf : Bool) :
    (∀ s', vote s sender now bid ci = .ok s' →
      (s.ballots bid).hasVoted sender = false ∧
      (s'.ballots bid).hasVoted sender = true) ∧
    (∀ s', voteEncrypted s sender now bid enc pf = .ok s' →
      (s.ballots bid).hasVoted sender = false ∧
      (s'.ballots bid).hasVoted sender = true) ∧
    ((s.ballots bid).hasVoted sender = true →
      (∃ e, vote s sender now bid ci = .error e) ∧
      (∃ e, voteEncrypted s sender now bid enc pf = .error e) ∧
      (bid < s.ballotCounter → (s.ballots bid).isActive = true →
        now < (s.ballots bid).endTime →
        vote s sender now bid ci = .error .alreadyVoted ∧
        voteEncrypted s sender now bid enc pf = .error .alreadyVoted)) := by
  refine ⟨?_, ?_, ?_⟩
  · intro s' hok
    obtain ⟨-, -, -, hnv, -, rfl⟩ := vote_inv hok
    exact ⟨hnv, by simp [Function.update_same]⟩
  · intro s' hok
    obtain ⟨-, -, -, hnv, -, rfl⟩ := voteEncrypted_inv hok
    exact ⟨hnv, by simp [Function.update_same]⟩
  · intro hv
    refine ⟨?_, ?_, ?_⟩
    · unfold vote
      by_cases h1 : s.ballotCounter ≤ bid
      · rw [if_pos h1]; exact ⟨_, rfl⟩
      · rw [if_neg h1]
        by_cases h2 : (s.ballots bid).isActive = false
        · rw [if_pos h2]; exact ⟨_, rfl⟩
        · rw [if_neg h2]
          by_cases h3 : (s.ballots bid).endTime ≤ now
          · rw [if_pos h3]; exact ⟨_, rfl⟩
          · rw [if_neg h3, if_pos hv]; exact ⟨_, rfl⟩
    · unfold voteEncrypted
      by_cases h1 : s.ballotCounter ≤ bid
      · rw [if_pos h1]; exact ⟨_, rfl⟩
      · rw [if_neg h1]
        by_cases h2 : (s.ballots bid).isActive = false
        · rw [if_pos h2]; exact ⟨_, rfl⟩
        · rw [if_neg h2]
          by_cases h3 : (s.ballots bid).endTime ≤ now
          · rw [if_pos h3]; exact ⟨_, rfl⟩
          · rw [if_neg h3, if_pos hv]; exact ⟨_, rfl⟩
    · intro hex hact hnow
      constructor
      · unfold vote
        rw [if_neg (by omega), if_neg (by simp [hact]),
          if_neg (by omega), if_pos hv]
      · unfold voteEncrypted
        rw [if_neg (by omega), if_neg (by simp [hact]),
          if_neg (by omega), if_pos hv]

/-- Witness for C2 (amended): on the concrete ballot where voter `1` already
voted, a second `vote` and a `voteEncrypted` at time 30 (still active) both
fail with DuplicateVoteError. -/
theorem claim_C2_amended_witness :
    vote exStateVoted 1 30 0 1 = Except.error Err.alreadyVoted ∧
    voteEncrypted exStateVoted 1 30 0 99 true =
      Except.error Err.alreadyVoted :=
  ((claim_C2_amended exStateVoted 1 30 0 1 99 true).2.2 (by decide)).2.2
    (by decide) (by decide) (by decide)

/-- Claim C7: every successful `voteEncrypted` call increments the encrypted
counter of candidate index 0 by one (wrapping at `2 ^ 32`), whatever the
supplied encrypted candidate index or state; all other counters are
unchanged, and `hasVoted` / `totalVotes` are updated exactly as in the
plaintext `vote` path: the caller's flag is set, other voters' flags are
unchanged, and `totalVotes` grows by one. -/
theorem claim_C7 (s s' : State) (sender : Address) (now bid enc : Nat)
    (pf : Bool) (h : voteEncrypted s sender now bid enc pf = .ok s') :
    (s'.ballots bid).encryptedVotes 0 =
      ((s.ballots bid).encryptedVotes 0 + 1) % U32MOD ∧
    (∀ j, j ≠ 0 →
      (s'.ballots bid).encryptedVotes j = (s.ballots bid).encryptedVotes j) ∧
    (s'.ballots bid).hasVoted sender = true ∧
    (∀ v, v ≠ sender →
      (s'.ballots bid).hasVoted v = (s.ballots bid).hasVoted v) ∧
    (s'.ballots bid).totalVotes = (s.ballots bid).totalVotes + 1 := by
  obtain ⟨-, -, -, -, -, rfl⟩ := voteEncrypted_inv h
  refine ⟨by simp [Function.update_same], ?_, by simp [Function.update_same],
    ?_, by simp [Function.update_same]⟩
  · intro j hj
    simp [Function.update_same, Function.update_noteq hj]
  · intro v hv
    simp [Function.update_same, Function.update_noteq hv]

/-- Witness for C7: the concrete `voteEncrypted` call with encrypted index 99
credits candidate 0, leaves candidate 1's counter unchanged, sets the
caller's flag and bumps `totalVotes`. -/
theorem claim_C7_witness :
    (exStateEncVoted.ballots 0).encryptedVotes 0 =
      ((exState.ballots 0).encryptedVotes 0 + 1) % U32MOD ∧
    (∀ j, j ≠ 0 → (exStateEncVoted.ballots 0).encryptedVotes j =
      (exState.ballots 0).encryptedVotes j) ∧
    (exStateEncVoted.ballots 0).hasVoted 1 = true ∧
    (∀ v, v ≠ 1 → (exStateEncVoted.ballots 0).hasVoted v =
      (exState.ballots 0).hasVoted v) ∧
    (exStateEncVoted.ballots 0).totalVotes =
      (exState.ballots 0).totalVotes + 1 :=
  claim_C7 exState exStateEncVoted 1 0 0 99 true rfl

/-- Claim C8: for every existing ballot, `getResults` fails with
NotRevealedError in every state where `resultsRevealed` is false, and
whenever `resultsRevealed` is true it succeeds and returns the stored
per-candidate `finalResult` array, of length equal to the candidate count. -/
theorem claim_C8 (s : State) (bid : Nat) (h : bid < s.ballotCounter) :
    ((s.ballots bid).resultsRevealed = false →
      getResults s bid = .error .resultsNotYetRevealed) ∧
    ((s.ballots bid).resultsRevealed = true →
      ∃ rs, getResults s bid = .ok rs ∧
        rs.length = (s.ballots bid).candidates.length ∧
        ∀ i, i < rs.length → rs.getD i 0 = (s.ballots bid).finalResults i) := by
  constructor
  · intro hrev
    unfold getResults
    rw [if_neg (by omega), if_pos hrev]
  · intro hrev
    unfold getResults
    rw [if_neg (by omega), if_neg (by simp [hrev])]
    refine ⟨_, rfl, by simp, ?_⟩
    intro i hi
    have hi' : i < ((List.range (s.ballots bid).candidates.length).map
        (s.ballots bid).finalResults).length := hi
    rw [List.getD_eq_getElem _ 0 hi']
    simp [List.getElem_range]

/-- Witness for C8: on the concrete created ballot `getResults` fails with
NotRevealedError, and on the revealed ballot it returns the stored array of
length 2. -/
theorem claim_C8_witness :
    getResults exState 0 = Except.error Err.resultsNotYetRevealed ∧
    (∃ rs, getResults exStateRevealed 0 = Except.ok rs ∧
      rs.length = (exStateRevealed.ballots 0).candidates.length ∧
      ∀ i, i < rs.length → rs.getD i 0 =
        (exStateRevealed.ballots 0).finalResults i) :=
  ⟨(claim_C8 exState 0 (by decide)).1 (by decide),
   (claim_C8 exStateRevealed 0 (by decide)).2 (by decide)⟩

/-- The reachable state after committing results `[5, 7]` on the concrete
ballot with zero votes: `setResults` accepts any array of the right length. -/
def c1BadState : State :=
  match setResults exState 7 60 0 [5, 7] with
  | .ok s => s
  | .error _ => exState

/-- Counterexample for C1 as stated: a reachable state with a revealed ballot
whose stored final results sum to 12 while `totalVotes` is 0 — `setResults`
never checks the supplied counts against `totalVotes`. -/
theorem claim_C1_counterexample :
    Reachable c1BadState ∧
    c1BadState.ballotCounter = 1 ∧
    (c1BadState.ballots 0).resultsRevealed = true ∧
    finalSum (c1BadState.ballots 0) = 12 ∧
    (c1BadState.ballots 0).totalVotes = 0 ∧
    finalSum (c1BadState.ballots 0) ≠ (c1BadState.ballots 0).totalVotes :=
  ⟨Reachable.setResultsStep exState c1BadState 7 60 0 [5, 7]
      reachable_exState rfl,
   rfl, by decide, by decide, rfl, by decide⟩

/-- Claim C1 (amended): once revealed, the sum of `finalResult` over the
candidate indices of a ballot equals the sum of the results array supplied to
the successful `setResults` call, each entry reduced modulo `2 ^ 32`; the
commit leaves `totalVotes` unchanged and nothing ties the two together. -/
theorem claim_C1_amended (s s' : State) (sender : Address) (now bid : Nat)
    (results : List Nat) (h : setResults s sender now bid results = .ok s') :
    finalSum (s'.ballots bid) = (results.map (fun x => x % U32MOD)).sum ∧
    (s'.ballots bid).totalVotes = (s.ballots bid).totalVotes := by
  obtain ⟨-, -, -, hlen, rfl⟩ := setResults_inv h
  constructor
  · unfold finalSum
    simp only [Function.update_same]
    rw [map_range_finalStore results _ _ hlen.symm]
  · simp [Function.update_same]

/-- Witness for C1 (amended): on the concrete commit of `[5, 7]`, the stored
sum is the reduced supplied sum and `totalVotes` is untouched. -/
theorem claim_C1_amended_witness :
    finalSum (c1BadState.ballots 0) =
      ([5, 7].map (fun x => x % U32MOD)).sum ∧
    (c1BadState.ballots 0).totalVotes = (exState.ballots 0).totalVotes :=
  claim_C1_amended exState c1BadState 7 60 0 [5, 7] rfl

/-- Claim C6: in every reachable state and at every wall-clock time, every
ballot id below `ballotCounter` is in exactly one of `getActiveBallots` and
`getEndedBallots` — the contract never clears `isActive`, so the two
time conditions `now < endTime` and `endTime ≤ now` partition the ids. -/
theorem claim_C6 (s : State) (h : Reachable s) (now i : Nat)
    (hi : i < s.ballotCounter) :
    (i ∈ getActiveBallots s now ∧ i ∉ getEndedBallots s now) ∨
    (i ∉ getActiveBallots s now ∧ i ∈ getEndedBallots s now) := by
  have hact := reachable_isActive h i hi
  rcases Nat.lt_or_ge now (s.ballots i).endTime with hlt | hge
  · left
    refine ⟨mem_getActiveBallots.2 ⟨hi, hact, hlt⟩, ?_⟩
    intro hmem
    have := (mem_getEndedBallots.1 hmem).2
    omega
  · right
    refine ⟨?_, mem_getEndedBallots.2 ⟨hi, hge⟩⟩
    intro hmem
    have := (mem_getActiveBallots.1 hmem).2.2
    omega

/-- Witness for C6: in the concrete reachable one-ballot state at time 0,
ballot 0 is in exactly one of the two lists. -/
theorem claim_C6_witness :
    (0 ∈ getActiveBallots exState 0 ∧ 0 ∉ getEndedBallots exState 0) ∨
    (0 ∉ getActiveBallots exState 0 ∧ 0 ∈ getEndedBallots exState 0) :=
  claim_C6 exState reachable_exState 0 0 (by decide)

/-- Claim C9: the off-chain reveal loop never aborts: it always produces a
results array of full length (one entry per candidate); an entry whose
decryption request fails is 0, an entry whose decryption succeeds is the
decrypted value; and the produced array passes the `setResults` length check,
so the reveal still commits on an existing, ended, unrevealed ballot. -/
theorem claim_C9 (n : Nat) (isZeroHash : Nat → Bool)
    (decrypt : Nat → Option Nat) :
    (revealDecryptLoop n isZeroHash decrypt).length = n ∧
    (∀ i, i < n → isZeroHash i = false → decrypt i = none →
      (revealDecryptLoop n isZeroHash decrypt).getD i 0 = 0) ∧
    (∀ i v, i < n → isZeroHash i = false → decrypt i = some v →
      (revealDecryptLoop n isZeroHash decrypt).getD i 0 = v) ∧
    (∀ s (sender : Address) now bid, bid < s.ballotCounter →
      (s.ballots bid).endTime ≤ now →
      (s.ballots bid).resultsRevealed = false →
      n = (s.ballots bid).candidates.length →
      ∃ s', setResults s sender now bid
        (revealDecryptLoop n isZeroHash decrypt) = .ok s') := by
  have hlen : (revealDecryptLoop n isZeroHash decrypt).length = n := by
    simp [revealDecryptLoop]
  refine ⟨hlen, ?_, ?_, ?_⟩
  · intro i hi hz hd
    have hi' : i < (revealDecryptLoop n isZeroHash decrypt).length := by omega
    rw [List.getD_eq_getElem _ 0 hi']
    simp [revealDecryptLoop, List.getElem_range, hz, hd]
  · intro i v hi hz hd
    have hi' : i < (revealDecryptLoop n isZeroHash decrypt).length := by omega
    rw [List.getD_eq_getElem _ 0 hi']
    simp [revealDecryptLoop, List.getElem_range, hz, hd]
  · intro s sender now bid hex hend hrev hn
    unfold setResults
    rw [if_neg (by omega), if_neg (by omega), if_neg (by simp [hrev]),
      if_neg (by simp [revealDecryptLoop, hn])]
    exact ⟨_, rfl⟩

/-- Witness for C9: with two candidates where candidate 0's decryption fails
and candidate 1 decrypts to 3, the loop yields `[0, 3]` entrywise and the
commit on the concrete ended ballot succeeds. -/
theorem claim_C9_witness :
    (revealDecryptLoop 2 (fun _ => false)
      (fun i => if i = 0 then none else some 3)).getD 0 0 = 0 ∧
    (revealDecryptLoop 2 (fun _ => false)
      (fun i => if i = 0 then none else some 3)).getD 1 0 = 3 ∧
    (∃ s', setResults exState 4 60 0
      (revealDecryptLoop 2 (fun _ => false)
        (fun i => if i = 0 then none else some 3)) = Except.ok s') :=
  ⟨(claim_C9 2 (fun _ => false) (fun i => if i = 0 then none else some 3)).2.1
      0 (by decide) rfl rfl,
   (claim_C9 2 (fun _ => false) (fun i => if i = 0 then none else some 3)).2.2.1
      1 3 (by decide) rfl rfl,
   (claim_C9 2 (fun _ => false) (fun i => if i = 0 then none else some 3)).2.2.2
      exState 4 60 0 (by decide) (by decide) (by decide) (by decide)⟩

/-- Claim C10: a successful `setResults` emits the `ResultsRevealed` event
carrying the unreduced `uint256` values, while the stored counts are reduced
modulo `2 ^ 32`: `getResults` afterwards returns the entrywise reductions,
and any supplied count of at least `2 ^ 32` differs from the value in the
emitted event. -/
theorem claim_C10 (s s' : State) (sender : Address) (now bid : Nat)
    (results : List Nat) (h : setResults s sender now bid results = .ok s') :
    s'.events = s.events ++ [Event.ResultsRevealed bid results] ∧
    getResults s' bid = .ok (results.map (fun x => x % U32MOD)) ∧
    (∀ i, i < results.length → U32MOD ≤ results.getD i 0 →
      (results.map (fun x => x % U32MOD)).getD i 0 ≠ results.getD i 0) := by
  obtain ⟨hex, hend, hrev, hlen, rfl⟩ := setResults_inv h
  refine ⟨rfl, ?_, ?_⟩
  · unfold getResults
    dsimp only
    rw [if_neg (by omega)]
    rw [if_neg (by simp [Function.update_same])]
    simp only [Function.update_same]
    rw [map_range_finalStore results _ _ hlen.symm]
  · intro i hi hbig
    have hi' : i < (results.map (fun x => x % U32MOD)).length := by simpa using hi
    rw [List.getD_eq_getElem _ 0 hi', List.getD_eq_getElem _ 0 hi]
    simp only [List.getElem_map]
    have hmod : results[i] % U32MOD < U32MOD :=
      Nat.mod_lt _ (by norm_num [U32MOD])
    have : U32MOD ≤ results[i] := by
      rwa [List.getD_eq_getElem _ 0 hi] at hbig
    omega

/-- The reachable state after committing `[2 ^ 32, 1]` on the concrete
ended ballot. -/
def c10BigState : State :=
  match setResults exState 0 60 0 [4294967296, 1] with
  | .ok s => s
  | .error _ => exState

/-- Witness for C10: the concrete commit of `[2 ^ 32, 1]` logs the unreduced
array, `getResults` returns `[0, 1]`, and entry 0 differs from the event. -/
theorem claim_C10_witness :
    c10BigState.events = exState.events ++
      [Event.ResultsRevealed 0 [4294967296, 1]] ∧
    getResults c10BigState 0 = Except.ok [0, 1] ∧
    ([4294967296, 1].map (fun x => x % U32MOD)).getD 0 0 ≠
      [4294967296, 1].getD 0 0 :=
  ⟨(claim_C10 exState c10BigState 0 60 0 [4294967296, 1] rfl).1,
   (claim_C10 exState c10BigState 0 60 0 [4294967296, 1] rfl).2.1,
   (claim_C10 exState c10BigState 0 60 0 [4294967296, 1] rfl).2.2
     0 (by decide) (by decide)⟩

end SecretBallotBox
